import Mathlib

/-!
# Verification of the SoftDesk support API core

Shallow embedding of the authorization and data-integrity core of the
Django/DRF issue-tracking backend (`users` and `support` apps): the data
model (`users/models.py`, `support/models.py`), the serializer-level
validation (`users/serializers.py`, `support/serializers.py`) and the
view-level permission and create/update/destroy logic
(`users/views.py`, `support/views.py`).

Modelling conventions:
* database rows are records in lists held by a `State`; primary keys are `Nat`
  (the `Comment` UUID key is likewise an opaque `Nat`);
* `created_time` fields (`auto_now_add`, never written by a client and not
  referred to by any property below) are omitted from the records;
* password handling is delegated to the framework (`set_password`) and is
  not part of the embedded state;
* a requester is `Option Nat`: `none` is an unauthenticated request,
  `some u` a request authenticated as the user with id `u`;
* each HTTP operation is a function `State → ... → Except ApiError State`
  following DRF's evaluation order: authentication/permission classes,
  then serializer validation, then the viewset's `perform_*` hook.
  A raised exception aborts the request before any write, so an `error`
  result carries no state: the database keeps the pre-request state.
-/

deriving instance DecidableEq for Except

namespace SoftDesk

/-- Error classes surfaced by the API, mirroring the DRF exception taxonomy:
`validation` ↦ 400, `permissionDenied` ↦ 403, `notFound` ↦ 404,
`notAuthenticated` ↦ 401. -/
inductive ApiError where
  | validation (msg : String)
  | permissionDenied (msg : String)
  | notFound
  | notAuthenticated
deriving DecidableEq, Repr

/-- `users.models.User`: custom user with `age`, consent flags and a unique
`email`; `username` is unique (inherited from `AbstractUser`). -/
structure User where
  id : Nat
  username : String
  email : String
  age : Nat
  can_be_contacted : Bool
  can_data_be_shared : Bool
deriving DecidableEq, Repr

/-- `support.models.Project`: `type` is constrained to the four
`TYPE_CHOICES`; `author` is a foreign key to `User`. -/
structure Project where
  id : Nat
  title : String
  description : String
  type : String
  author : Nat
deriving DecidableEq, Repr

/-- `support.models.Contributor`: join row between a user and a project,
with `unique_together = ("user", "project")`. -/
structure Contributor where
  id : Nat
  user : Nat
  project : Nat
deriving DecidableEq, Repr

/-- `support.models.Issue`: ticket scoped to a project, with `tag`,
`priority` and `status` constrained to their choice lists. -/
structure Issue where
  id : Nat
  title : String
  description : String
  tag : String
  priority : String
  status : String
  project : Nat
  author : Nat
  assignee : Nat
deriving DecidableEq, Repr

/-- `support.models.Comment`: comment scoped to an issue; its UUID primary
key is modelled as an opaque `Nat`. -/
structure Comment where
  id : Nat
  description : String
  issue : Nat
  author : Nat
deriving DecidableEq, Repr

/-- The relational store: one table per model. -/
structure State where
  users : List User
  projects : List Project
  contributors : List Contributor
  issues : List Issue
  comments : List Comment
deriving DecidableEq, Repr

/-- `User.objects.get(id=uid)` as a partial lookup. -/
def findUser (st : State) (uid : Nat) : Option User :=
  st.users.find? (fun u => u.id == uid)

/-- `Project.objects.get(id=pid)` as a partial lookup. -/
def findProject (st : State) (pid : Nat) : Option Project :=
  st.projects.find? (fun p => p.id == pid)

/-- `Contributor.objects.get(id=cid)` as a partial lookup. -/
def findContributor (st : State) (cid : Nat) : Option Contributor :=
  st.contributors.find? (fun c => c.id == cid)

/-- `Issue.objects.get(id=iid)` as a partial lookup. -/
def findIssue (st : State) (iid : Nat) : Option Issue :=
  st.issues.find? (fun i => i.id == iid)

/-- `Contributor.objects.filter(project=pid, user=uid).exists()`. -/
def contributorExists (st : State) (uid pid : Nat) : Bool :=
  st.contributors.any (fun c => c.user == uid && c.project == pid)

/-- HTTP methods relevant to the viewsets. -/
inductive Method where
  | GET | HEAD | OPTIONS | POST | PUT | PATCH | DELETE
deriving DecidableEq, Repr

/-- `rest_framework.permissions.SAFE_METHODS`. -/
def safeMethod (m : Method) : Bool :=
  m == .GET || m == .HEAD || m == .OPTIONS

/-- `permissions.IsAuthenticated.has_permission`: the request carries a
logged-in user. -/
def isAuthenticated (r : Option Nat) : Bool :=
  r.isSome

/-- `support.views.IsAuthorOrReadOnly.has_object_permission`: safe methods
are always allowed; mutation only when the object's author is the
requester. -/
def isAuthorOrReadOnly (m : Method) (requester objAuthor : Nat) : Bool :=
  safeMethod m || objAuthor == requester

/-- The raw integer-valued keys of `request.data` that
`IsContributorOrAuthor` inspects. -/
structure ReqData where
  projectField : Option Nat
  issueField : Option Nat
deriving DecidableEq, Repr

/-- Python truthiness of an optional integer field of `request.data`:
a missing key and the value `0` are both falsy. -/
def truthyId (v : Option Nat) : Option Nat :=
  match v with
  | some n => if n == 0 then none else some n
  | none => none

/-- `request.data.get("project") or request.data.get("issue")`. -/
def extractedId (data : ReqData) : Option Nat :=
  match truthyId data.projectField with
  | some n => some n
  | none => truthyId data.issueField

/-- `support.views.IsContributorOrAuthor.has_permission`: on `POST`,
resolve `request.data.get("project") or request.data.get("issue")` — via the
issue when the view's basename is `"comment"`, directly as a project
otherwise — and allow only the resolved project's author or one of its
contributors; a falsy or unresolvable id denies (returns `false`).
Non-`POST` methods are always allowed. -/
def isContributorOrAuthor (st : State) (basename : String) (m : Method)
    (requester : Nat) (data : ReqData) : Bool :=
  if m == .POST then
    match extractedId data with
    | none => false
    | some project_id =>
      if basename == "comment" then
        match findIssue st project_id with
        | none => false
        | some issue =>
          match findProject st issue.project with
          | none => false
          | some project =>
            project.author == requester ||
              contributorExists st requester project.id
      else
        match findProject st project_id with
        | none => false
        | some project =>
          project.author == requester ||
            contributorExists st requester project.id
  else true

/-- Next auto-increment primary key for a table, given its current ids. -/
def freshId (ids : List Nat) : Nat :=
  ids.foldr max 0 + 1

/-- `Project.TYPE_CHOICES` membership, validated by the `ChoiceField`. -/
def validProjectType (t : String) : Bool :=
  t == "BACKEND" || t == "FRONTEND" || t == "IOS" || t == "ANDROID"

/-- `Issue.TAG_CHOICES` membership. -/
def validTag (t : String) : Bool :=
  t == "BUG" || t == "FEATURE" || t == "TASK"

/-- `Issue.PRIORITY_CHOICES` membership. -/
def validPriority (p : String) : Bool :=
  p == "LOW" || p == "MEDIUM" || p == "HIGH"

/-- `Issue.STATUS_CHOICES` membership. -/
def validStatus (s : String) : Bool :=
  s == "TODO" || s == "IN_PROGRESS" || s == "FINISHED"

/-! ## User Directory (`users` app) -/

/-- The writable signup fields of `users.serializers.UserSerializer`
(the password, hashed by `set_password` and excluded from the state,
is omitted). -/
structure SignupInput where
  username : String
  email : String
  age : Nat
  can_be_contacted : Bool
  can_data_be_shared : Bool
deriving DecidableEq, Repr

/-- `users.serializers.UserSerializer.validate_age`: rejects `age ≤ 15`.
(The same rule appears in `users.models.User.clean`.) -/
def validate_age (value : Nat) : Except ApiError Nat :=
  if value ≤ 15 then
    .error (.validation "L'utilisateur doit avoir plus de 15 ans.")
  else .ok value

/-- `POST /users/` (signup). `UserViewSet.permission_classes` is
`[permissions.AllowAny]`, so no requester argument is needed: the request
is served whether or not credentials are supplied. Serializer validation
runs the implicit uniqueness validators of the `username` and `email`
fields and then `validate_age`; `UserSerializer.create` stores the row. -/
def userCreateRequest (st : State) (d : SignupInput) : Except ApiError State :=
  if st.users.any (fun u => u.username == d.username) then
    .error (.validation "A user with that username already exists.")
  else if st.users.any (fun u => u.email == d.email) then
    .error (.validation "user with this email address already exists.")
  else
    match validate_age d.age with
    | .error e => .error e
    | .ok age =>
      .ok { st with
              users := st.users ++
                [⟨freshId (st.users.map (fun u => u.id)), d.username, d.email,
                  age, d.can_be_contacted, d.can_data_be_shared⟩] }

/-- Which permission gate each routed endpoint applies to an incoming
request, before any object is fetched. `UserViewSet` declares `AllowAny`;
the four `support` viewsets declare `IsAuthenticated`, and `IssueViewSet`
and `CommentViewSet` additionally declare `IsAuthorOrReadOnly` (no
`has_permission` override, so vacuous here) and `IsContributorOrAuthor`.
DRF denies as soon as one listed class returns `false`. -/
inductive Endpoint where
  | users | projects | contributors | issues | comments
deriving DecidableEq, Repr

/-- The request-level (pre-object) permission verdict of each endpoint. -/
def requestAllowed (st : State) (e : Endpoint) (m : Method)
    (r : Option Nat) (data : ReqData) : Bool :=
  match e with
  | .users => true
  | .projects => isAuthenticated r
  | .contributors => isAuthenticated r
  | .issues =>
    match r with
    | none => false
    | some u => isContributorOrAuthor st "issue" m u data
  | .comments =>
    match r with
    | none => false
    | some u => isContributorOrAuthor st "comment" m u data

/-! ## Project Registry (`ProjectViewSet`) -/

/-- The writable fields of `support.serializers.ProjectSerializer`
(`author` and `created_time` are `read_only_fields`). -/
structure ProjectInput where
  title : String
  description : String
  type : String
deriving DecidableEq, Repr

/-- Serializer validation for a project payload: `title` is a
`CharField(max_length=128)` and `type` a choice field. -/
def validProjectInput (d : ProjectInput) : Bool :=
  d.title.length ≤ 128 && validProjectType d.type

/-- First write of `ProjectViewSet.perform_create`:
`project = serializer.save(author=self.request.user)`. With no
`transaction.atomic` wrapper in the view, this `save` is committed on its
own before the second statement runs. -/
def projectInsert (st : State) (requester : Nat) (d : ProjectInput) :
    State × Project :=
  let p : Project :=
    ⟨freshId (st.projects.map (fun q => q.id)), d.title, d.description,
      d.type, requester⟩
  ({ st with projects := st.projects ++ [p] }, p)

/-- Second write of `ProjectViewSet.perform_create`:
`Contributor.objects.create(user=self.request.user, project=project)`. -/
def contributorInsert (st : State) (uid pid : Nat) : State :=
  { st with
      contributors := st.contributors ++
        [⟨freshId (st.contributors.map (fun c => c.id)), uid, pid⟩] }

/-- The sequence of database states committed while
`ProjectViewSet.perform_create` runs: one committed state after each of its
two autocommit writes. -/
def projectCreateCommits (st : State) (requester : Nat) (d : ProjectInput) :
    List State :=
  let (st1, p) := projectInsert st requester d
  [st1, contributorInsert st1 requester p.id]

/-- `POST /projects/`: `permission_classes = [IsAuthenticated]`, serializer
validation, then `perform_create` (both writes, run to completion). -/
def projectCreateRequest (st : State) (r : Option Nat) (d : ProjectInput) :
    Except ApiError State :=
  match r with
  | none => .error .notAuthenticated
  | some u =>
    if !validProjectInput d then .error (.validation "invalid project payload")
    else
      let (st1, p) := projectInsert st u d
      .ok (contributorInsert st1 u p.id)

/-- A partial-update payload for `PATCH /projects/{id}/`; absent fields keep
the stored value. `author` and `created_time` are read-only and cannot
appear. -/
structure ProjectPatch where
  title : Option String
  description : Option String
  type : Option String
deriving DecidableEq, Repr

/-- Serializer validation of the fields present in a project patch. -/
def validProjectPatch (d : ProjectPatch) : Bool :=
  (match d.title with | some t => t.length ≤ 128 | none => true) &&
    (match d.type with | some t => validProjectType t | none => true)

/-- `PATCH /projects/{id}/`. `ProjectViewSet.permission_classes` is
`[permissions.IsAuthenticated]` only: `IsAuthorOrReadOnly` is not listed on
this viewset, so after the object is fetched no object-level check relates
the requester to the project's author; the serializer keeps `author`
read-only and writes the supplied fields. -/
def projectUpdateRequest (st : State) (r : Option Nat) (pid : Nat)
    (d : ProjectPatch) : Except ApiError State :=
  match r with
  | none => .error .notAuthenticated
  | some _ =>
    match findProject st pid with
    | none => .error .notFound
    | some p =>
      if !validProjectPatch d then
        .error (.validation "invalid project payload")
      else
        .ok { st with
                projects := st.projects.map (fun q =>
                  if q.id == pid then
                    { q with
                        title := d.title.getD p.title,
                        description := d.description.getD p.description,
                        type := d.type.getD p.type }
                  else q) }

/-- `DELETE /projects/{id}/`. As with update, only `IsAuthenticated` guards
the operation; the row is deleted for any authenticated requester. -/
def projectDestroyRequest (st : State) (r : Option Nat) (pid : Nat) :
    Except ApiError State :=
  match r with
  | none => .error .notAuthenticated
  | some _ =>
    match findProject st pid with
    | none => .error .notFound
    | some _ =>
      .ok { st with
              projects := st.projects.filter (fun q => !(q.id == pid)),
              contributors :=
                st.contributors.filter (fun c => !(c.project == pid)),
              issues := st.issues.filter (fun i => !(i.project == pid)),
              comments := st.comments.filter (fun c =>
                !(st.issues.any (fun i => i.id == c.issue && i.project == pid))) }

/-! ## Contributor Membership (`ContributorViewSet`) -/

/-- The raw `request.data` keys read during contributor creation:
`request.data.get("project")` and `request.data.get("user")`. -/
structure ContributorInput where
  user : Option Nat
  project : Option Nat
deriving DecidableEq, Repr

/-- `POST /contributors/`: `permission_classes = [IsAuthenticated]`;
`ContributorSerializer` resolves the `user` and `project` primary keys and
its `validate` rejects a (user, project) pair that already exists; then
`ContributorViewSet.perform_create` re-checks the raw ids, requires the
requester to be the project's author, re-checks the duplicate, and saves. -/
def contributorCreateRequest (st : State) (r : Option Nat)
    (d : ContributorInput) : Except ApiError State :=
  match r with
  | none => .error .notAuthenticated
  | some requester =>
    -- serializer.is_valid: both PrimaryKeyRelatedFields must be present
    -- and resolve, then ContributorSerializer.validate runs
    match d.user, d.project with
    | some uid, some pid =>
      match findUser st uid, findProject st pid with
      | some _, some project =>
        if contributorExists st uid pid then
          .error (.validation
            "Cet utilisateur est déjà contributeur de ce projet.")
        else
          -- perform_create: raw falsy check, existence checks (already
          -- satisfied), author check, duplicate check (already false), save
          if truthyId d.project == none || truthyId d.user == none then
            .error (.validation "Payload must contain 'project' and 'user' IDs.")
          else if !(project.author == requester) then
            .error (.permissionDenied
              "Only the project author can add contributors.")
          else
            .ok { st with
                    contributors := st.contributors ++
                      [⟨freshId (st.contributors.map (fun c => c.id)),
                        uid, pid⟩] }
      | _, _ => .error (.validation "Invalid pk")
    | _, _ => .error (.validation "This field is required.")

/-- `DELETE /contributors/{id}/`: `permission_classes = [IsAuthenticated]`
with no object-level class, then `perform_destroy`, which refuses to delete
the row when `instance.project.author == instance.user` and otherwise
deletes it. The requester's identity is never consulted past
authentication. (A dangling `project` foreign key cannot occur under the
database's referential integrity; the embedding deletes in that vacuous
branch.) -/
def contributorDestroyRequest (st : State) (r : Option Nat) (cid : Nat) :
    Except ApiError State :=
  match r with
  | none => .error .notAuthenticated
  | some _ =>
    match findContributor st cid with
    | none => .error .notFound
    | some row =>
      match findProject st row.project with
      | some project =>
        if project.author == row.user then
          .error (.permissionDenied "Impossible de supprimer l'auteur du projet.")
        else
          .ok { st with
                  contributors := st.contributors.filter (fun c => !(c.id == cid)) }
      | none =>
        .ok { st with
                contributors := st.contributors.filter (fun c => !(c.id == cid)) }

/-! ## Issue Tracker (`IssueViewSet`) -/

/-- The writable fields of `support.serializers.IssueSerializer` for
creation (`author` and `created_time` are read-only; `status` falls back to
the model default `"TODO"` when absent). -/
structure IssueInput where
  title : String
  description : String
  tag : String
  priority : String
  status : Option String
  project : Nat
  assignee : Nat
deriving DecidableEq, Repr

/-- Serializer validation of an issue-creation payload: choice fields,
`title` length, and resolution of the `project` and `assignee` primary
keys. -/
def validIssueInput (st : State) (d : IssueInput) : Bool :=
  d.title.length ≤ 128 && validTag d.tag && validPriority d.priority &&
    (match d.status with | some s => validStatus s | none => true) &&
    (findProject st d.project).isSome && (findUser st d.assignee).isSome

/-- `perform_create`/`perform_update` membership test on the resolved
project object: `project.author == assignee or
Contributor.objects.filter(project=project, user=assignee).exists()`. -/
def assigneeCheck (st : State) (project : Project) (assignee : Nat) : Bool :=
  project.author == assignee || contributorExists st assignee project.id

/-- `POST /issues/`: `permission_classes = [IsAuthenticated,
IsAuthorOrReadOnly, IsContributorOrAuthor]`. The gate reads the raw
`"project"` key (the serializer's `project` field, so the same id);
serializer validation then runs, and `perform_create` rejects an assignee
who is neither the project's author nor one of its contributors before
saving with `author=self.request.user`. -/
def issueCreateRequest (st : State) (r : Option Nat) (d : IssueInput) :
    Except ApiError State :=
  match r with
  | none => .error .notAuthenticated
  | some u =>
    if !(isContributorOrAuthor st "issue" .POST u ⟨some d.project, none⟩) then
      .error (.permissionDenied
        "You do not have permission to perform this action.")
    else if !validIssueInput st d then
      .error (.validation "invalid issue payload")
    else
      match findProject st d.project with
      | none => .error (.validation "Invalid pk")
      | some project =>
        if !(assigneeCheck st project d.assignee) then
          .error (.validation
            "L'assignee doit être auteur ou contributeur du projet.")
        else
          .ok { st with
                  issues := st.issues ++
                    [⟨freshId (st.issues.map (fun i => i.id)), d.title,
                      d.description, d.tag, d.priority,
                      d.status.getD "TODO", d.project, u, d.assignee⟩] }

/-- A partial-update payload for `PATCH /issues/{id}/`; absent fields keep
the stored value. `author` and `created_time` are read-only; every other
model field, `project` and `assignee` included, is writable. -/
structure IssuePatch where
  title : Option String
  description : Option String
  tag : Option String
  priority : Option String
  status : Option String
  project : Option Nat
  assignee : Option Nat
deriving DecidableEq, Repr

/-- Serializer validation of the fields present in an issue patch. -/
def validIssuePatch (st : State) (d : IssuePatch) : Bool :=
  (match d.title with | some t => t.length ≤ 128 | none => true) &&
    (match d.tag with | some t => validTag t | none => true) &&
    (match d.priority with | some p => validPriority p | none => true) &&
    (match d.status with | some s => validStatus s | none => true) &&
    (match d.project with | some pid => (findProject st pid).isSome | none => true) &&
    (match d.assignee with | some uid => (findUser st uid).isSome | none => true)

/-- `PATCH /issues/{id}/`: after `IsAuthenticated`, the object-level
`IsAuthorOrReadOnly` check requires the requester to be the issue's author
(`IsContributorOrAuthor` passes on non-POST); serializer validation runs on
the supplied fields; `perform_update` re-runs the assignee membership test
against `serializer.validated_data.get("project",
serializer.instance.project)` and `.get("assignee",
serializer.instance.assignee)`, raising a `ValidationError` before any
write when it fails, and otherwise saves the patched row. -/
def issueUpdateRequest (st : State) (r : Option Nat) (iid : Nat)
    (d : IssuePatch) : Except ApiError State :=
  match r with
  | none => .error .notAuthenticated
  | some u =>
    match findIssue st iid with
    | none => .error .notFound
    | some instInstance =>
      if !(isAuthorOrReadOnly .PATCH u instInstance.author) then
        .error (.permissionDenied
          "You do not have permission to perform this action.")
      else if !validIssuePatch st d then
        .error (.validation "invalid issue payload")
      else
        match findProject st (d.project.getD instInstance.project) with
        | none => .error (.validation "Invalid pk")
        | some project =>
          let assignee := d.assignee.getD instInstance.assignee
          if !(assigneeCheck st project assignee) then
            .error (.validation
              "L'assignee doit être auteur ou contributeur du projet.")
          else
            .ok { st with
                    issues := st.issues.map (fun i =>
                      if i.id == iid then
                        { i with
                            title := d.title.getD i.title,
                            description := d.description.getD i.description,
                            tag := d.tag.getD i.tag,
                            priority := d.priority.getD i.priority,
                            status := d.status.getD i.status,
                            project := project.id,
                            assignee := assignee }
                      else i) }

/-! ## Comment Log (`CommentViewSet`) -/

/-- A comment-creation request: the serializer's writable fields
(`description`, `issue`; `author` is read-only, so a client-supplied value
is carried but ignored), plus the raw `"project"` key that
`IsContributorOrAuthor` reads first even though no serializer field uses
it. -/
structure CommentInput where
  description : String
  issue : Option Nat
  projectField : Option Nat
  author : Option Nat
deriving DecidableEq, Repr

/-- `POST /comments/`: `permission_classes = [IsAuthenticated,
IsAuthorOrReadOnly, IsContributorOrAuthor]` with basename `"comment"`, so
the gate resolves `request.data.get("project") or
request.data.get("issue")` as an issue id and checks membership of that
issue's project; serializer validation then requires the `issue` field to
resolve; `perform_create` saves with `author=self.request.user`. -/
def commentCreateRequest (st : State) (r : Option Nat) (d : CommentInput) :
    Except ApiError State :=
  match r with
  | none => .error .notAuthenticated
  | some u =>
    if !(isContributorOrAuthor st "comment" .POST u
          ⟨d.projectField, d.issue⟩) then
      .error (.permissionDenied
        "You do not have permission to perform this action.")
    else
      match d.issue with
      | none => .error (.validation "This field is required.")
      | some iid =>
        match findIssue st iid with
        | none => .error (.validation "Invalid pk")
        | some _ =>
          .ok { st with
                  comments := st.comments ++
                    [⟨freshId (st.comments.map (fun c => c.id)),
                      d.description, iid, u⟩] }

/-! ## Derived predicates and fixtures -/

/-- The state produced by a successful request, `none` on a raised
exception (the exception aborts the request before any write). -/
def okState (r : Except ApiError State) : Option State :=
  match r with
  | .ok s => some s
  | .error _ => none

/-- The §8 issue invariant: the issue's assignee is its project's author or
a current contributor of that project. -/
def issueAssigneeOk (st : State) (i : Issue) : Bool :=
  match findProject st i.project with
  | some p => assigneeCheck st p i.assignee
  | none => false

/-- The `unique_together = ("user", "project")` invariant: no two distinct
contributor rows share a (user, project) pair. -/
def pairUnique (st : State) : Prop :=
  ∀ c₁ ∈ st.contributors, ∀ c₂ ∈ st.contributors,
    c₁.user = c₂.user → c₁.project = c₂.project → c₁ = c₂

/-- Referential integrity of the `Contributor.project` foreign key,
guaranteed by the database. -/
def contributorsResolve (st : State) : Prop :=
  ∀ c ∈ st.contributors, ∃ q ∈ st.projects, c.project = q.id

/-- Auto-increment primary keys are never 0 (`freshId` starts at 1), so a
stored issue id is always truthy as a Python integer. -/
def issueIdsPositive (st : State) : Prop :=
  ∀ i ∈ st.issues, i.id ≠ 0

/-- Fixture: a lone registered user. -/
def aliceUser : User :=
  ⟨1, "alice", "alice@example.com", 30, false, false⟩

/-- Fixture: a second registered user. -/
def bobUser : User :=
  ⟨2, "bob", "bob@example.com", 25, false, false⟩

/-- Fixture: a state with one project authored by user 1, whose author
holds the usual contributor row. -/
def stOwned : State :=
  ⟨[aliceUser, bobUser], [⟨1, "Plateforme", "suivi", "BACKEND", 1⟩],
    [⟨1, 1, 1⟩], [], []⟩

/-- Fixture: a single registered user and an otherwise empty store. -/
def stEmpty : State :=
  ⟨[aliceUser], [], [], [], []⟩

/-- Fixture: like `stOwned` but with user 2 also added as a contributor of
project 1 (row id 2). -/
def stOwnedPlus : State :=
  ⟨[aliceUser, bobUser], [⟨1, "Plateforme", "suivi", "BACKEND", 1⟩],
    [⟨1, 1, 1⟩, ⟨2, 2, 1⟩], [], []⟩

/-- Fixture for the comment gate: user 3 contributes to project 1
(author 1) but has no standing on project 2 (author 2); each project has
one issue. -/
def stTwoIssues : State :=
  ⟨[aliceUser, bobUser, ⟨3, "carol", "carol@example.com", 28, false, false⟩],
    [⟨1, "P1", "d", "BACKEND", 1⟩, ⟨2, "P2", "d", "FRONTEND", 2⟩],
    [⟨1, 3, 1⟩],
    [⟨1, "I1", "d", "BUG", "LOW", "TODO", 1, 1, 1⟩,
      ⟨2, "I2", "d", "BUG", "LOW", "TODO", 2, 2, 2⟩],
    []⟩

/-- Fixture for issue updates: user 1 authors two projects and an issue on
the first. -/
def stTwoProjects : State :=
  ⟨[aliceUser],
    [⟨1, "P1", "d", "BACKEND", 1⟩, ⟨2, "P2", "d", "IOS", 1⟩],
    [⟨1, 1, 1⟩, ⟨2, 1, 2⟩],
    [⟨1, "I1", "d", "BUG", "LOW", "TODO", 1, 1, 1⟩],
    []⟩

/-! ## Helper lemmas -/

/-- Every member of a list of naturals is bounded by the running maximum,
so `freshId` produces an id strictly larger than every stored id. -/
theorem mem_le_foldr_max (l : List Nat) : ∀ a ∈ l, a ≤ l.foldr max 0 := by
  induction l with
  | nil => intro a ha; cases ha
  | cons x xs ih =>
    intro a ha
    rcases List.mem_cons.mp ha with h | h
    · simp [h, Nat.le_max_left]
    · exact le_trans (ih a h) (Nat.le_max_right x (xs.foldr max 0))

/-- `freshId` is fresh: it differs from every id already in the list. -/
theorem freshId_not_mem (l : List Nat) : freshId l ∉ l := by
  intro hmem
  have := mem_le_foldr_max l _ hmem
  simp only [freshId] at this
  omega

/-- Inversion of a successful contributor creation: the raw ids were
present, the (user, project) pair was not yet a contributor row, and the
new state appends exactly that row. -/
theorem contributorCreateRequest_ok_inv (st : State) (r : Option Nat)
    (d : ContributorInput) (st' : State)
    (h : contributorCreateRequest st r d = .ok st') :
    ∃ uid pid, d.user = some uid ∧ d.project = some pid ∧
      contributorExists st uid pid = false ∧
      st' = { st with contributors := st.contributors ++
        [⟨freshId (st.contributors.map (fun c => c.id)), uid, pid⟩] } := by
  cases r with
  | none => exact Except.noConfusion h
  | some requester =>
    simp only [contributorCreateRequest] at h
    split at h
    next uid pid hdu hdp =>
      split at h
      next w project hw hp =>
        split at h
        next hdup => exact Except.noConfusion h
        next hdup =>
          split at h
          next => exact Except.noConfusion h
          next =>
            split at h
            next => exact Except.noConfusion h
            next =>
              injection h with h
              refine ⟨uid, pid, hdu, hdp, ?_, h.symm⟩
              simp at hdup
              exact hdup
      next hw hp => exact Except.noConfusion h
    next hne => exact Except.noConfusion h

/-- Inversion of a successful project creation: the requester was
authenticated and the new state appends the new project (authored by the
requester) together with the requester's contributor row on it. -/
theorem projectCreateRequest_ok_inv (st : State) (r : Option Nat)
    (d : ProjectInput) (st' : State)
    (h : projectCreateRequest st r d = .ok st') :
    ∃ u, r = some u ∧
      st' = { st with
        projects := st.projects ++
          [⟨freshId (st.projects.map (fun p => p.id)), d.title, d.description,
            d.type, u⟩],
        contributors := st.contributors ++
          [⟨freshId (st.contributors.map (fun c => c.id)), u,
            freshId (st.projects.map (fun p => p.id))⟩] } := by
  cases r with
  | none => exact Except.noConfusion h
  | some u =>
    simp only [projectCreateRequest, projectInsert, contributorInsert] at h
    split at h
    next => exact Except.noConfusion h
    next =>
      injection h with h
      exact ⟨u, rfl, h.symm⟩

/-- Inversion of a successful issue creation: the gate and serializer
checks passed, the assignee was the project's author or one of its
contributors, and the new state appends the issue with `author` forced to
the requester. -/
theorem issueCreateRequest_ok_inv (st : State) (r : Option Nat)
    (d : IssueInput) (st' : State)
    (h : issueCreateRequest st r d = .ok st') :
    ∃ u project, r = some u ∧
      validIssueInput st d = true ∧
      findProject st d.project = some project ∧
      assigneeCheck st project d.assignee = true ∧
      st' = { st with issues := st.issues ++
        [⟨freshId (st.issues.map (fun i => i.id)), d.title, d.description,
          d.tag, d.priority, d.status.getD "TODO", d.project, u,
          d.assignee⟩] } := by
  cases r with
  | none => exact Except.noConfusion h
  | some u =>
    simp only [issueCreateRequest] at h
    split at h
    next => exact Except.noConfusion h
    next hperm =>
      split at h
      next => exact Except.noConfusion h
      next hvalid =>
        split at h
        next => exact Except.noConfusion h
        next project hproj =>
          split at h
          next => exact Except.noConfusion h
          next hchk =>
            injection h with h
            simp at hvalid hchk
            exact ⟨u, project, rfl, by simp [hvalid], hproj, hchk, h.symm⟩

/-- Inversion of a successful issue update: the requester was the issue's
author, the patch validated, the effective (project, assignee) pair passed
the membership test, and the new state rewrites exactly the target row,
keeping its `author`. -/
theorem issueUpdateRequest_ok_inv (st : State) (r : Option Nat) (iid : Nat)
    (d : IssuePatch) (st' : State)
    (h : issueUpdateRequest st r iid d = .ok st') :
    ∃ u inst project, r = some u ∧
      findIssue st iid = some inst ∧
      isAuthorOrReadOnly .PATCH u inst.author = true ∧
      validIssuePatch st d = true ∧
      findProject st (d.project.getD inst.project) = some project ∧
      assigneeCheck st project (d.assignee.getD inst.assignee) = true ∧
      st' = { st with issues := st.issues.map (fun i =>
        if i.id == iid then
          { i with
              title := d.title.getD i.title,
              description := d.description.getD i.description,
              tag := d.tag.getD i.tag,
              priority := d.priority.getD i.priority,
              status := d.status.getD i.status,
              project := project.id,
              assignee := d.assignee.getD inst.assignee }
        else i) } := by
  cases r with
  | none => exact Except.noConfusion h
  | some u =>
    simp only [issueUpdateRequest] at h
    split at h
    next => exact Except.noConfusion h
    next inst hinst =>
      split at h
      next => exact Except.noConfusion h
      next hauth =>
        split at h
        next => exact Except.noConfusion h
        next hvalid =>
          split at h
          next => exact Except.noConfusion h
          next project hproj =>
            split at h
            next => exact Except.noConfusion h
            next hchk =>
              injection h with h
              simp at hauth hvalid hchk
              exact ⟨u, inst, project, rfl, hinst, by simp [hauth], by simp [hvalid],
                hproj, hchk, h.symm⟩

/-- Inversion of a successful comment creation: the gate passed on the id
it extracted from the raw payload, the serializer's `issue` field resolved,
and the new state appends the comment under that `issue` field with
`author` forced to the requester (any client-supplied author is dropped). -/
theorem commentCreateRequest_ok_inv (st : State) (r : Option Nat)
    (d : CommentInput) (st' : State)
    (h : commentCreateRequest st r d = .ok st') :
    ∃ u iid, r = some u ∧
      isContributorOrAuthor st "comment" .POST u ⟨d.projectField, d.issue⟩ = true ∧
      d.issue = some iid ∧ (findIssue st iid).isSome = true ∧
      st' = { st with comments := st.comments ++
        [⟨freshId (st.comments.map (fun c => c.id)), d.description, iid, u⟩] } := by
  cases r with
  | none => exact Except.noConfusion h
  | some u =>
    simp only [commentCreateRequest] at h
    split at h
    next => exact Except.noConfusion h
    next hperm =>
      split at h
      next => exact Except.noConfusion h
      next iid hiid =>
        split at h
        next => exact Except.noConfusion h
        next issue hissue =>
          injection h with h
          simp at hperm
          exact ⟨u, iid, rfl, hperm, hiid, by simp [hissue], h.symm⟩

/-- Characterization of the comment-side gate: it accepts exactly when the
id extracted from the raw payload (`"project"` key first, `"issue"` key as
fallback) resolves to an existing issue whose project has the requester as
author or contributor. -/
theorem isContributorOrAuthor_comment_iff (st : State) (u : Nat)
    (data : ReqData) :
    isContributorOrAuthor st "comment" .POST u data = true ↔
      ∃ eid issue p, extractedId data = some eid ∧
        findIssue st eid = some issue ∧
        findProject st issue.project = some p ∧
        (p.author == u || contributorExists st u p.id) = true := by
  constructor
  · intro h
    simp only [isContributorOrAuthor, beq_self_eq_true, if_true] at h
    split at h
    next => exact absurd h (by simp)
    next eid hextr =>
      split at h
      next => exact absurd h (by simp)
      next issue hissue =>
        split at h
        next => exact absurd h (by simp)
        next p hp => exact ⟨eid, issue, p, hextr, hissue, hp, h⟩
  · intro ⟨eid, issue, p, hextr, hissue, hp, hq⟩
    simp only [isContributorOrAuthor, beq_self_eq_true, if_true, hextr,
      hissue, hp]
    exact hq

/-! ## Claim theorems -/

/-- **C1.** The spec requires that only a project's author may update or
delete it (any other authenticated requester must get 403 Forbidden with
the project unchanged). The code does not enforce this:
`ProjectViewSet.permission_classes` is `[permissions.IsAuthenticated]`
alone — the `IsAuthorOrReadOnly` class defined at `support/views.py:14`
(and applied to `IssueViewSet` and `CommentViewSet`) is not listed — so in
the state `stOwned`, where project 1 is authored by user 1, the
authenticated non-author user 2 successfully renames project 1 and
successfully deletes it. -/
theorem project_mutation_open_to_non_author :
    (okState (projectUpdateRequest stOwned (some 2) 1 ⟨some "taken", none, none⟩)).bind
        (fun s => findProject s 1) =
      some ⟨1, "taken", "suivi", "BACKEND", 1⟩ ∧
    (okState (projectDestroyRequest stOwned (some 2) 1)).map (fun s => s.projects) =
      some [] := by
  decide

/-- **C2 counterexample.** The claim says every entity-endpoint operation
without credentials is rejected except user creation; but
`UserViewSet.permission_classes = [AllowAny]` covers every action, so an
unauthenticated list (`GET`) and an unauthenticated destroy (`DELETE`) on
`/users` are both admitted by the permission layer. -/
theorem users_endpoint_open_without_credentials :
    requestAllowed stEmpty .users .GET none ⟨none, none⟩ = true ∧
    requestAllowed stEmpty .users .DELETE none ⟨none, none⟩ = true := by
  decide

/-- **C2 amended.** Unauthenticated requests are rejected on the
`/projects`, `/contributors`, `/issues` and `/comments` endpoints, while
every `/users` operation — not only signup — is admitted without
credentials. -/
theorem unauthenticated_rejected_except_users :
    ∀ (st : State) (m : Method) (data : ReqData),
      requestAllowed st .users m none data = true ∧
      requestAllowed st .projects m none data = false ∧
      requestAllowed st .contributors m none data = false ∧
      requestAllowed st .issues m none data = false ∧
      requestAllowed st .comments m none data = false := by
  intro st m data
  exact ⟨rfl, rfl, rfl, rfl, rfl⟩

/-- **C3.** `ProjectViewSet.perform_create` executes
`serializer.save(author=...)` and `Contributor.objects.create(...)` as two
separate autocommit writes with no `transaction.atomic` wrapper: the first
committed database state already holds the new project (authored by the
requester) while no contributor row for (requester, project) exists yet;
only the second commit adds it. The claimed both-or-neither atomicity
therefore fails at the intermediate commit. -/
theorem project_create_commit_gap :
    (projectCreateCommits stEmpty 1 ⟨"P", "d", "BACKEND"⟩).head?.map
        (fun s => ((findProject s 1).map (fun p => p.author), contributorExists s 1 1)) =
      some (some 1, false) ∧
    (projectCreateCommits stEmpty 1 ⟨"P", "d", "BACKEND"⟩).getLast?.map
        (fun s => contributorExists s 1 1) =
      some true := by
  decide

/-- **C6.** `ContributorViewSet.perform_destroy` raises `PermissionDenied`
whenever the target row's user is its project's author, so the author's
membership row can never be removed through contributor deletion: the
request errors with 403 and the row is still stored. -/
theorem author_contributor_row_undeletable :
    ∀ (st : State) (u cid : Nat) (row : Contributor) (p : Project),
      findContributor st cid = some row →
      findProject st row.project = some p →
      p.author = row.user →
      contributorDestroyRequest st (some u) cid =
          .error (.permissionDenied "Impossible de supprimer l'auteur du projet.") ∧
        row ∈ st.contributors := by
  intro st u cid row p h₁ h₂ h₃
  refine ⟨?_, List.mem_of_find?_eq_some h₁⟩
  simp only [contributorDestroyRequest, h₁, h₂]
  rw [if_pos (by simp [h₃])]

/-- **C6 witness.** In `stOwned`, contributor row 1 is (user 1, project 1)
and project 1 is authored by user 1; user 2's delete request fails with
403 and the row is still present. -/
theorem author_contributor_row_undeletable_witness :
    contributorDestroyRequest stOwned (some 2) 1 =
        .error (.permissionDenied "Impossible de supprimer l'auteur du projet.") ∧
      (⟨1, 1, 1⟩ : Contributor) ∈ stOwned.contributors :=
  author_contributor_row_undeletable stOwned 2 1 ⟨1, 1, 1⟩
    ⟨1, "Plateforme", "suivi", "BACKEND", 1⟩ (by decide) (by decide) rfl

/-- **C10.** On the contributor delete path no check relates the requester
to the project: (i) the outcome is literally the same function of the
store for every authenticated requester, and (ii) whenever the target
row's user is not its project's author, the delete succeeds — for any
authenticated requester whatsoever, a complete stranger to the project
included — and removes exactly that row. -/
theorem contributor_destroy_requester_independent :
    (∀ (st : State) (cid u₁ u₂ : Nat),
        contributorDestroyRequest st (some u₁) cid =
          contributorDestroyRequest st (some u₂) cid) ∧
    (∀ (st : State) (u cid : Nat) (row : Contributor) (p : Project),
        findContributor st cid = some row →
        findProject st row.project = some p →
        p.author ≠ row.user →
        contributorDestroyRequest st (some u) cid =
          .ok { st with
                  contributors := st.contributors.filter (fun c => !(c.id == cid)) }) := by
  constructor
  · intro st cid u₁ u₂
    rfl
  · intro st u cid row p h₁ h₂ h₃
    simp only [contributorDestroyRequest, h₁, h₂]
    rw [if_neg (by simp [h₃])]

/-- **C10 witness.** In `stOwnedPlus`, row 2 is (user 2, project 1) with
project author 1 ≠ 2: requester 1 (the author) and requester 3 (neither
author nor contributor of project 1) get identical outcomes, and the
stranger's request deletes the row. -/
theorem contributor_destroy_requester_independent_witness :
    contributorDestroyRequest stOwnedPlus (some 1) 2 =
        contributorDestroyRequest stOwnedPlus (some 3) 2 ∧
      contributorDestroyRequest stOwnedPlus (some 3) 2 =
        .ok { stOwnedPlus with
                contributors := stOwnedPlus.contributors.filter (fun c => !(c.id == 2)) } :=
  ⟨contributor_destroy_requester_independent.1 stOwnedPlus 2 1 3,
    contributor_destroy_requester_independent.2 stOwnedPlus 3 2 ⟨2, 2, 1⟩
      ⟨1, "Plateforme", "suivi", "BACKEND", 1⟩ (by decide) (by decide) (by decide)⟩

/-- The assignee-membership predicate only reads the `projects` and
`contributors` tables, so replacing the `issues` table leaves it
unchanged. -/
theorem issueAssigneeOk_issues_mod (st : State) (e : List Issue) (i : Issue) :
    issueAssigneeOk { st with issues := e } i = issueAssigneeOk st i := rfl

/-- **C4.** The assignee invariant: (i) every issue added by a successful
create satisfies "assignee is the project's author or a current
contributor"; (ii) so does every issue changed by a successful update;
(iii) an update whose effective (project, assignee) pair — incoming value
if patched, stored value otherwise — fails the membership test is rejected
with the `perform_update` validation error, before any write (an `error`
result carries no state, so the prior state is preserved). -/
theorem issue_assignee_membership :
    (∀ (st : State) (r : Option Nat) (d : IssueInput) (st₁ : State),
        issueCreateRequest st r d = .ok st₁ →
        ∀ i ∈ st₁.issues, i ∉ st.issues → issueAssigneeOk st₁ i = true) ∧
    (∀ (st : State) (r : Option Nat) (iid : Nat) (patch : IssuePatch)
        (st₂ : State),
        issueUpdateRequest st r iid patch = .ok st₂ →
        ∀ i ∈ st₂.issues, i ∉ st.issues → issueAssigneeOk st₂ i = true) ∧
    (∀ (st : State) (u iid : Nat) (inst : Issue) (patch : IssuePatch)
        (project : Project),
        findIssue st iid = some inst → inst.author = u →
        validIssuePatch st patch = true →
        findProject st (patch.project.getD inst.project) = some project →
        assigneeCheck st project (patch.assignee.getD inst.assignee) = false →
        issueUpdateRequest st (some u) iid patch =
          .error (.validation
            "L'assignee doit être auteur ou contributeur du projet.")) := by
  refine ⟨?_, ?_, ?_⟩
  · intro st r d st₁ h i hi hni
    obtain ⟨u, project, hr, hvalid, hproj, hchk, hst⟩ :=
      issueCreateRequest_ok_inv st r d st₁ h
    subst hst
    rw [issueAssigneeOk_issues_mod]
    rcases List.mem_append.mp hi with hold | hnew
    · exact absurd hold hni
    · have hiv := List.mem_singleton.mp hnew
      subst hiv
      simp [issueAssigneeOk, hproj, hchk]
  · intro st r iid patch st₂ h i hi hni
    obtain ⟨u, inst, project, hr, hinst, hauth, hvalid, hproj, hchk, hst⟩ :=
      issueUpdateRequest_ok_inv st r iid patch st₂ h
    subst hst
    rw [issueAssigneeOk_issues_mod]
    obtain ⟨x, hx, hfx⟩ := List.mem_map.mp hi
    by_cases hid : (x.id == iid) = true
    · rw [if_pos hid] at hfx
      subst hfx
      have hpid : project.id = patch.project.getD inst.project := by
        have := List.find?_some hproj
        simpa using this
      simp only [issueAssigneeOk]
      rw [hpid, hproj]
      exact hchk
    · rw [if_neg hid] at hfx
      subst hfx
      exact absurd hx hni
  · intro st u iid inst patch project hinst hu hvalid hproj hchk
    simp only [issueUpdateRequest, hinst, hproj]
    rw [if_neg (by simp [isAuthorOrReadOnly, safeMethod, hu]),
      if_neg (by simp [hvalid]), if_pos (by simp [hchk])]

/-- **C4 witness.** User 1 creates an issue on their project 1 in `stOwned`
(assignee 1 is the project author): the stored issue satisfies the
invariant. In `stTwoIssues`, user 1 (author of issue 1) patches its
assignee to user 2, who is neither author nor contributor of project 1:
the update is rejected with the membership validation error. -/
theorem issue_assignee_membership_witness :
    issueAssigneeOk
        { stOwned with issues := [⟨1, "I", "d", "BUG", "LOW", "TODO", 1, 1, 1⟩] }
        ⟨1, "I", "d", "BUG", "LOW", "TODO", 1, 1, 1⟩ = true ∧
      issueUpdateRequest stTwoIssues (some 1) 1
          ⟨none, none, none, none, none, none, some 2⟩ =
        .error (.validation
          "L'assignee doit être auteur ou contributeur du projet.") :=
  ⟨issue_assignee_membership.1 stOwned (some 1) ⟨"I", "d", "BUG", "LOW", none, 1, 1⟩
      { stOwned with issues := [⟨1, "I", "d", "BUG", "LOW", "TODO", 1, 1, 1⟩] }
      (by decide) ⟨1, "I", "d", "BUG", "LOW", "TODO", 1, 1, 1⟩ (by decide) (by decide),
    issue_assignee_membership.2.2 stTwoIssues 1 1
      ⟨1, "I1", "d", "BUG", "LOW", "TODO", 1, 1, 1⟩
      ⟨none, none, none, none, none, none, some 2⟩
      ⟨1, "P1", "d", "BACKEND", 1⟩ (by decide) rfl (by decide) (by decide)
      (by decide)⟩

/-- **C7.** Contributor (user, project) uniqueness: (i) a create request
for a pair that already has a row — with both ids resolving and the
requester authenticated — fails with the serializer's duplicate validation
error and can never return a new state; (ii) contributor creation preserves
pairwise uniqueness of the rows; (iii) so does project creation (whose
`perform_create` inserts the author's row on the brand-new project),
assuming the stored rows reference existing projects, as the foreign key
guarantees. -/
theorem contributor_pair_unique :
    (∀ (st : State) (requester uid pid : Nat) (d : ContributorInput)
        (w : User) (q : Project),
        d.user = some uid → d.project = some pid →
        findUser st uid = some w → findProject st pid = some q →
        contributorExists st uid pid = true →
        contributorCreateRequest st (some requester) d =
            .error (.validation
              "Cet utilisateur est déjà contributeur de ce projet.") ∧
          ∀ st', contributorCreateRequest st (some requester) d ≠ .ok st') ∧
    (∀ (st : State) (r : Option Nat) (d : ContributorInput) (st' : State),
        pairUnique st → contributorCreateRequest st r d = .ok st' →
        pairUnique st') ∧
    (∀ (st : State) (r : Option Nat) (d : ProjectInput) (st' : State),
        pairUnique st → contributorsResolve st →
        projectCreateRequest st r d = .ok st' → pairUnique st') := by
  refine ⟨?_, ?_, ?_⟩
  · intro st requester uid pid d w q hdu hdp hw hq hdup
    have herr : contributorCreateRequest st (some requester) d =
        .error (.validation
          "Cet utilisateur est déjà contributeur de ce projet.") := by
      simp only [contributorCreateRequest, hdu, hdp, hw, hq]
      rw [if_pos hdup]
    exact ⟨herr, fun st' hok => by rw [herr] at hok; exact Except.noConfusion hok⟩
  · intro st r d st' hpu hok
    obtain ⟨uid, pid, hdu, hdp, hnex, hst⟩ :=
      contributorCreateRequest_ok_inv st r d st' hok
    subst hst
    intro c₁ hc₁ c₂ hc₂ huser hproj
    rcases List.mem_append.mp hc₁ with h₁ | h₁ <;>
      rcases List.mem_append.mp hc₂ with h₂ | h₂
    · exact hpu c₁ h₁ c₂ h₂ huser hproj
    · have h₂' := List.mem_singleton.mp h₂
      subst h₂'
      simp only at huser hproj
      have : contributorExists st uid pid = true := by
        simp only [contributorExists, List.any_eq_true]
        exact ⟨c₁, h₁, by simp [huser, hproj]⟩
      rw [hnex] at this
      exact Bool.noConfusion this
    · have h₁' := List.mem_singleton.mp h₁
      subst h₁'
      simp only at huser hproj
      have : contributorExists st uid pid = true := by
        simp only [contributorExists, List.any_eq_true]
        exact ⟨c₂, h₂, by simp [huser, hproj]⟩
      rw [hnex] at this
      exact Bool.noConfusion this
    · rw [List.mem_singleton.mp h₁, List.mem_singleton.mp h₂]
  · intro st r d st' hpu hres hok
    obtain ⟨u, hr, hst⟩ := projectCreateRequest_ok_inv st r d st' hok
    subst hst
    intro c₁ hc₁ c₂ hc₂ huser hproj
    have hfresh : ∀ c ∈ st.contributors,
        c.project ≠ freshId (st.projects.map (fun p => p.id)) := by
      intro c hc hceq
      obtain ⟨q, hqmem, hcq⟩ := hres c hc
      have : freshId (st.projects.map (fun p => p.id)) ∈
          st.projects.map (fun p => p.id) :=
        List.mem_map.mpr ⟨q, hqmem, by rw [← hcq, hceq]⟩
      exact freshId_not_mem _ this
    rcases List.mem_append.mp hc₁ with h₁ | h₁ <;>
      rcases List.mem_append.mp hc₂ with h₂ | h₂
    · exact hpu c₁ h₁ c₂ h₂ huser hproj
    · have h₂' := List.mem_singleton.mp h₂
      subst h₂'
      simp only at hproj
      exact absurd hproj (hfresh c₁ h₁)
    · have h₁' := List.mem_singleton.mp h₁
      subst h₁'
      simp only at hproj
      exact absurd hproj.symm (hfresh c₂ h₂)
    · rw [List.mem_singleton.mp h₁, List.mem_singleton.mp h₂]

/-- **C7 witness.** In `stOwned` the pair (user 1, project 1) already has
contributor row 1; user 1's request to add it again fails with the
duplicate validation error. -/
theorem contributor_pair_unique_witness :
    contributorCreateRequest stOwned (some 1) ⟨some 1, some 1⟩ =
      .error (.validation "Cet utilisateur est déjà contributeur de ce projet.") :=
  (contributor_pair_unique.1 stOwned 1 1 1 ⟨some 1, some 1⟩ aliceUser
    ⟨1, "Plateforme", "suivi", "BACKEND", 1⟩ rfl rfl (by decide) (by decide)
    (by decide)).1

/-- **C8.** Signup age validation: (i) any signup with `age ≤ 15` fails
with a validation error (whatever the other fields) and never stores a
user; (ii) with `age = 16` and a fresh username and email, signup succeeds
and stores exactly the submitted user. The boundary is exact: 15 falls
under (i), 16 under (ii). -/
theorem signup_age_boundary :
    (∀ (st : State) (d : SignupInput), d.age ≤ 15 →
        (∃ m, userCreateRequest st d = .error (.validation m)) ∧
        ∀ st', userCreateRequest st d ≠ .ok st') ∧
    (∀ (st : State) (d : SignupInput), d.age = 16 →
        st.users.any (fun v => v.username == d.username) = false →
        st.users.any (fun v => v.email == d.email) = false →
        userCreateRequest st d = .ok { st with users := st.users ++
          [⟨freshId (st.users.map (fun v => v.id)), d.username, d.email, 16,
            d.can_be_contacted, d.can_data_be_shared⟩] }) := by
  constructor
  · intro st d h
    have hex : ∃ m, userCreateRequest st d = .error (.validation m) := by
      unfold userCreateRequest
      by_cases h₁ : st.users.any (fun u => u.username == d.username) = true
      · rw [if_pos h₁]; exact ⟨_, rfl⟩
      · rw [if_neg h₁]
        by_cases h₂ : st.users.any (fun u => u.email == d.email) = true
        · rw [if_pos h₂]; exact ⟨_, rfl⟩
        · rw [if_neg h₂]
          simp [validate_age, h]
    obtain ⟨m, hm⟩ := hex
    exact ⟨⟨m, hm⟩, fun st' hok => by rw [hm] at hok; exact Except.noConfusion hok⟩
  · intro st d h h₁ h₂
    unfold userCreateRequest
    rw [if_neg (by simp [h₁]), if_neg (by simp [h₂])]
    simp [validate_age, h]

/-- **C8 witness.** On the one-user store `stEmpty`: a 15-year-old's signup
is rejected (in particular it cannot leave the store unchanged-but-ok),
while a 16-year-old's signup with fresh credentials stores the new user. -/
theorem signup_age_boundary_witness :
    userCreateRequest stEmpty ⟨"kid", "kid@example.com", 15, false, false⟩ ≠
        .ok stEmpty ∧
      userCreateRequest stEmpty ⟨"teen", "teen@example.com", 16, false, false⟩ =
        .ok { stEmpty with users := stEmpty.users ++
          [⟨freshId (stEmpty.users.map (fun v => v.id)), "teen",
            "teen@example.com", 16, false, false⟩] } :=
  ⟨(signup_age_boundary.1 stEmpty ⟨"kid", "kid@example.com", 15, false, false⟩
      (by decide)).2 stEmpty,
    signup_age_boundary.2 stEmpty ⟨"teen", "teen@example.com", 16, false, false⟩
      rfl (by decide) (by decide)⟩

/-- **C9 counterexample.** `IssueSerializer` marks only `author` and
`created_time` read-only, and `IssueViewSet.perform_update` explicitly
accepts an incoming `project` value: in `stTwoProjects`, issue 1 belongs to
project 1, yet its author's patch `{project: 2}` succeeds and the issue now
belongs to project 2. The claimed immutability of the issue's project
fails. -/
theorem issue_project_mutable_counterexample :
    (findIssue stTwoProjects 1).map (fun i => i.project) = some 1 ∧
    (okState (issueUpdateRequest stTwoProjects (some 1) 1
          ⟨none, none, none, none, none, some 2, none⟩)).bind
        (fun s => (findIssue s 1).map (fun i => i.project)) = some 2 := by
  decide

/-- **C9 amended.** On a successful issue update the `author` field is
unchanged (read-only), while `project` is writable: the stored issue's
project becomes the patched value when the patch carries one (subject to
the serializer's resolution check and the assignee-membership re-check) and
keeps the stored value otherwise. -/
theorem issue_update_author_immutable_project_writable :
    ∀ (st : State) (u iid : Nat) (patch : IssuePatch) (st' : State)
      (i₀ : Issue),
      issueUpdateRequest st (some u) iid patch = .ok st' →
      findIssue st iid = some i₀ →
      (findIssue st' iid).map (fun i => i.author) = some i₀.author ∧
      (findIssue st' iid).map (fun i => i.project) =
        some (patch.project.getD i₀.project) := by
  intro st u iid patch st' i₀ h hfind
  obtain ⟨u', inst, project, hr, hinst, hauth, hvalid, hproj, hchk, hst⟩ :=
    issueUpdateRequest_ok_inv st (some u) iid patch st' h
  rw [hinst] at hfind
  injection hfind with hfind
  subst hfind
  subst hst
  have hfi0 : st.issues.find? (fun i => i.id == iid) = some inst := hinst
  have hfp0 : st.projects.find?
      (fun p => p.id == patch.project.getD inst.project) = some project := hproj
  have hid := List.find?_some hfi0
  have hpid : project.id = patch.project.getD inst.project := by
    have := List.find?_some hfp0
    simpa using this
  have hfind' : findIssue
      { st with issues := st.issues.map (fun i =>
          if i.id == iid then
            { i with
                title := patch.title.getD i.title,
                description := patch.description.getD i.description,
                tag := patch.tag.getD i.tag,
                priority := patch.priority.getD i.priority,
                status := patch.status.getD i.status,
                project := project.id,
                assignee := patch.assignee.getD inst.assignee }
          else i) } iid =
      some { inst with
              title := patch.title.getD inst.title,
              description := patch.description.getD inst.description,
              tag := patch.tag.getD inst.tag,
              priority := patch.priority.getD inst.priority,
              status := patch.status.getD inst.status,
              project := project.id,
              assignee := patch.assignee.getD inst.assignee } := by
    simp only [findIssue]
    rw [List.find?_map]
    have hpred : ((fun i : Issue => i.id == iid) ∘ (fun i =>
        if i.id == iid then
          { i with
              title := patch.title.getD i.title,
              description := patch.description.getD i.description,
              tag := patch.tag.getD i.tag,
              priority := patch.priority.getD i.priority,
              status := patch.status.getD i.status,
              project := project.id,
              assignee := patch.assignee.getD inst.assignee }
        else i)) = (fun i : Issue => i.id == iid) := by
      funext x
      by_cases hx : (x.id == iid) = true
      · simp [Function.comp, hx]
      · simp [Function.comp, hx]
    rw [hpred]
    have hfi : st.issues.find? (fun i => i.id == iid) = some inst := hinst
    rw [hfi]
    have hideq : inst.id = iid := by simpa using hid
    simp [hideq]
  rw [hfind']
  exact ⟨rfl, by simp [hpid]⟩

/-- **C9 amended witness.** Instantiates the amended statement at the
counterexample update: the stored issue keeps author 1 and now carries the
patched project 2. -/
theorem issue_update_author_immutable_project_writable_witness :
    (findIssue
        { stTwoProjects with
            issues := [⟨1, "I1", "d", "BUG", "LOW", "TODO", 2, 1, 1⟩] } 1).map
        (fun i => i.author) = some 1 ∧
      (findIssue
          { stTwoProjects with
              issues := [⟨1, "I1", "d", "BUG", "LOW", "TODO", 2, 1, 1⟩] } 1).map
        (fun i => i.project) = some 2 :=
  issue_update_author_immutable_project_writable stTwoProjects 1 1
    ⟨none, none, none, none, none, some 2, none⟩
    { stTwoProjects with
        issues := [⟨1, "I1", "d", "BUG", "LOW", "TODO", 2, 1, 1⟩] }
    ⟨1, "I1", "d", "BUG", "LOW", "TODO", 1, 1, 1⟩ (by decide) (by decide)

/-- **C5 counterexample.** The gate reads
`request.data.get("project") or request.data.get("issue")` as the issue id,
while the serializer stores the comment under the `issue` field. In
`stTwoIssues`, requester 3 (contributor of project 1 only) sends
`{project: 1, issue: 2, description: "hi"}`: the gate resolves issue 1 (of
project 1, where user 3 qualifies) and the comment is created on issue 2 —
whose project 2 has author 2 ≠ 3 and no contributor row for user 3. So
creation succeeded although the requester is neither the author nor a
contributor of the referenced issue's project, refuting the claimed "if and
only if". -/
theorem comment_gate_checks_wrong_issue :
    (okState (commentCreateRequest stTwoIssues (some 3)
          ⟨"hi", some 2, some 1, none⟩)).map (fun s => s.comments) =
        some [⟨1, "hi", 2, 3⟩] ∧
      (findIssue stTwoIssues 2).map (fun i => i.project) = some 2 ∧
      (findProject stTwoIssues 2).map (fun p => p.author) = some 2 ∧
      contributorExists stTwoIssues 3 2 = false := by
  decide

/-- **C5 amended.** Comment creation by an authenticated requester behaves
as follows. (i) On success, the id the gate checked — the raw `project`
key when present and nonzero, else the `issue` key — resolves to an issue
of whose project the requester is author or contributor, the serializer's
`issue` field also resolves, and the comment is appended under that `issue`
field with author forced to the requester (a client-supplied author is
ignored). (ii) When no stray `project` key is supplied (ids being the
positive auto-increment keys), the original claim holds as an equivalence:
creation succeeds iff the `issue` field resolves to an existing issue whose
project's author the requester is, or of whose project they are a
contributor. (iii) A missing/falsy or unresolvable extracted id makes the
gate return `false`, surfacing as 403. -/
theorem comment_create_gate :
    (∀ (st : State) (r : Option Nat) (d : CommentInput) (st' : State),
        commentCreateRequest st r d = .ok st' →
        ∃ u eid issue p iid, r = some u ∧
          extractedId ⟨d.projectField, d.issue⟩ = some eid ∧
          findIssue st eid = some issue ∧
          findProject st issue.project = some p ∧
          (p.author == u || contributorExists st u p.id) = true ∧
          d.issue = some iid ∧ (findIssue st iid).isSome = true ∧
          st' = { st with comments := st.comments ++
            [⟨freshId (st.comments.map (fun c => c.id)), d.description, iid,
              u⟩] }) ∧
    (∀ (st : State) (u : Nat) (d : CommentInput),
        d.projectField = none → issueIdsPositive st →
        ((∃ st', commentCreateRequest st (some u) d = .ok st') ↔
          ∃ iid issue p, d.issue = some iid ∧ findIssue st iid = some issue ∧
            findProject st issue.project = some p ∧
            (p.author == u || contributorExists st u p.id) = true)) ∧
    (∀ (st : State) (u : Nat) (d : CommentInput),
        (extractedId ⟨d.projectField, d.issue⟩ = none ∨
          ∃ eid, extractedId ⟨d.projectField, d.issue⟩ = some eid ∧
            findIssue st eid = none) →
        commentCreateRequest st (some u) d =
          .error (.permissionDenied
            "You do not have permission to perform this action.")) := by
  have hA : ∀ (st : State) (r : Option Nat) (d : CommentInput) (st' : State),
      commentCreateRequest st r d = .ok st' →
      ∃ u eid issue p iid, r = some u ∧
        extractedId ⟨d.projectField, d.issue⟩ = some eid ∧
        findIssue st eid = some issue ∧
        findProject st issue.project = some p ∧
        (p.author == u || contributorExists st u p.id) = true ∧
        d.issue = some iid ∧ (findIssue st iid).isSome = true ∧
        st' = { st with comments := st.comments ++
          [⟨freshId (st.comments.map (fun c => c.id)), d.description, iid,
            u⟩] } := by
    intro st r d st' h
    obtain ⟨u, iid, hr, hperm, hdi, hfi, hst⟩ :=
      commentCreateRequest_ok_inv st r d st' h
    obtain ⟨eid, issue, p, hextr, hissue, hp, hq⟩ :=
      (isContributorOrAuthor_comment_iff st u ⟨d.projectField, d.issue⟩).mp hperm
    exact ⟨u, eid, issue, p, iid, hr, hextr, hissue, hp, hq, hdi, hfi, hst⟩
  refine ⟨hA, ?_, ?_⟩
  · intro st u d hpf hpos
    constructor
    · intro ⟨st', hok⟩
      obtain ⟨u', eid, issue, p, iid, hr, hextr, hissue, hp, hq, hdi, hfi, hst⟩ :=
        hA st (some u) d st' hok
      injection hr with hr
      subst hr
      rw [hpf] at hextr
      have hdieq : d.issue = some eid := by
        cases hdi' : d.issue with
        | none => rw [hdi'] at hextr; exact Option.noConfusion hextr
        | some v =>
          rw [hdi'] at hextr
          by_cases hv : (v == 0) = true
          · simp [extractedId, truthyId, hv] at hextr
          · simp only [extractedId, truthyId] at hextr
            rw [if_neg hv] at hextr
            injection hextr with hextr
            rw [hextr]
      exact ⟨eid, issue, p, hdieq, hissue, hp, hq⟩
    · intro ⟨iid, issue, p, hdi, hfi, hfp, hq⟩
      have hid0 : iid ≠ 0 := by
        have h1 : st.issues.find? (fun i => i.id == iid) = some issue := hfi
        have h2 := List.find?_some h1
        have h3 := hpos issue (List.mem_of_find?_eq_some h1)
        simp at h2
        omega
      have hextr : extractedId ⟨d.projectField, d.issue⟩ = some iid := by
        rw [hpf, hdi]
        simp [extractedId, truthyId, hid0]
      have hperm : isContributorOrAuthor st "comment" .POST u
          ⟨d.projectField, d.issue⟩ = true :=
        (isContributorOrAuthor_comment_iff st u ⟨d.projectField, d.issue⟩).mpr
          ⟨iid, issue, p, hextr, hfi, hfp, hq⟩
      refine ⟨{ st with comments := st.comments ++
        [⟨freshId (st.comments.map (fun c => c.id)), d.description, iid,
          u⟩] }, ?_⟩
      simp only [hdi] at hperm
      simp [commentCreateRequest, hperm, hdi, hfi]
  · intro st u d hbad
    have hfalse : isContributorOrAuthor st "comment" .POST u
        ⟨d.projectField, d.issue⟩ = false := by
      rcases hbad with hnone | ⟨eid, heid, hni⟩
      · simp only [isContributorOrAuthor, beq_self_eq_true, if_true, hnone]
      · simp only [isContributorOrAuthor, beq_self_eq_true, if_true, heid, hni]
    simp [commentCreateRequest, hfalse]

/-- **C5 witness.** A comment request with neither a `project` nor an
`issue` key extracts no id, so the gate denies and the request fails with
403. -/
theorem comment_create_gate_witness :
    commentCreateRequest stTwoIssues (some 3) ⟨"x", none, none, none⟩ =
      .error (.permissionDenied
        "You do not have permission to perform this action.") :=
  comment_create_gate.2.2 stTwoIssues 3 ⟨"x", none, none, none⟩ (Or.inl rfl)

end SoftDesk
